import Mathlib

/-!
Shallow embedding of the folder_cleaner program.

The program periodically removes matching entries from a directory.  The
operating-system surface it calls (std::fs::remove_dir_all,
std::fs::remove_file, std::path::Path::read_dir) is modelled as an oracle
environment `FsEnv`; the program's own functions are translated directly
from src/src/fs_utils/{error,pattern,op}.rs and src/src/routine.rs.
-/

deriving instance DecidableEq for Except

namespace FolderCleaner

/-- Model of std::io::ErrorKind: the kind the program distinguishes
(NotFound) plus representatives for every other kind. -/
inductive ErrorKind where
  | notFound
  | permissionDenied
  | otherKind
deriving DecidableEq, Repr

/-- Model of std::io::Error: an error kind together with the optional raw
operating-system error code returned by raw_os_error(). -/
structure IoError where
  kind : ErrorKind
  rawOsError : Option Int
deriving DecidableEq, Repr

/-- fs_utils/error.rs not_found: does an error signal that a path was not
found?  Translates e.kind() == io::ErrorKind::NotFound. -/
def not_found (e : IoError) : Bool :=
  e.kind == ErrorKind.notFound

/-- fs_utils/error.rs not_a_directory: does an error signal that a path was
unexpectedly not a directory?  Translates
matches!(e.raw_os_error(), Some(267)), the Windows error code check. -/
def not_a_directory (e : IoError) : Bool :=
  e.rawOsError == some 267

/-- Model of std::path::PathBuf: the sequence of path components. -/
structure Path where
  components : List String
deriving DecidableEq, Repr

/-- Model of std::path::Path::file_name: the final component, none for a
path ending in the parent-directory component. -/
def Path.fileName (p : Path) : Option String :=
  match p.components.getLast? with
  | some c => if c = ".." then none else some c
  | none => none

/-- Splits a character list at its last dot, giving the parts before and
after it; none when no dot occurs.  Helper for Path.extension, following
Rust's split_file_at_dot. -/
def splitAtLastDot : List Char → Option (List Char × List Char)
  | [] => none
  | c :: cs =>
    match splitAtLastDot cs with
    | some (before, after) => some (c :: before, after)
    | none => if c = '.' then some ([], cs) else none

/-- The extension of a file name, per Rust's split_file_at_dot: none for
"..", none when there is no dot, none when the only dot is the leading
character; otherwise the portion after the final dot. -/
def extensionOfFileName (f : String) : Option String :=
  if f = ".." then none
  else
    match splitAtLastDot f.data with
    | none => none
    | some (before, after) =>
      if before.isEmpty then none
      else some (String.mk after)

/-- Model of std::path::Path::extension. -/
def Path.extension (p : Path) : Option String :=
  match p.fileName with
  | none => none
  | some f => extensionOfFileName f

/-- fs_utils/pattern.rs FilePattern. -/
inductive FilePattern where
  | Any
  | Extension (ext : String)
deriving DecidableEq, Repr

/-- fs_utils/pattern.rs has_extension: translates
path.extension().unwrap_or_default() == ext.as_str(). -/
def has_extension (path : Path) (ext : String) : Bool :=
  (Path.extension path).getD "" == ext

/-- fs_utils/pattern.rs FilePattern::matches. -/
def FilePattern.matches : FilePattern → Path → Bool
  | .Any, _ => true
  | .Extension ext, path => has_extension path ext

/-- fs_utils/error.rs FailedToRemove: the path that could not be removed
together with the underlying operating-system error. -/
structure FailedToRemove where
  path : Path
  source : IoError
deriving DecidableEq, Repr

/-- FailedToRemove::new. -/
def FailedToRemove.new (path : Path) (source : IoError) : FailedToRemove :=
  { path := path, source := source }

/-- FailedToRemove::io_source. -/
def FailedToRemove.io_source (e : FailedToRemove) : IoError :=
  e.source

/-- Model of std::fs::DirEntry: the entry's path, as DirEntry::path()
returns it. -/
structure DirEntry where
  path : Path
deriving DecidableEq, Repr

/-- The operating-system surface the program calls.  readDir yields the
directory listing as Rust's ReadDir iterator does: an io::Result for the
listing itself, holding an io::Result per entry. -/
structure FsEnv where
  removeDirAll : Path → Except IoError Unit
  removeFile : Path → Except IoError Unit
  readDir : Path → Except IoError (List (Except IoError DirEntry))

/-- fs_utils/op.rs remove_with: runs the remover, normalizing a not-found
error to success and wrapping any other error with the path. -/
def remove_with (remover : Path → Except IoError Unit) (path : Path) :
    Except FailedToRemove Unit :=
  match remover path with
  | .ok _ => .ok ()
  | .error e =>
    if not_found e then .ok ()
    else .error (FailedToRemove.new path e)

/-- fs_utils/op.rs remove_dir: remove_with over std::fs::remove_dir_all. -/
def remove_dir (env : FsEnv) (path : Path) : Except FailedToRemove Unit :=
  remove_with env.removeDirAll path

/-- fs_utils/op.rs remove_file: remove_with over std::fs::remove_file. -/
def remove_file (env : FsEnv) (path : Path) : Except FailedToRemove Unit :=
  remove_with env.removeFile path

/-- fs_utils/op.rs remove: attempts the directory removal, redirecting to
the file removal when the error signals the path is not a directory. -/
def remove (env : FsEnv) (path : Path) : Except FailedToRemove Unit :=
  match remove_dir env path with
  | .error e =>
    if not_a_directory e.io_source then remove_file env path
    else .error e
  | .ok _ => .ok ()

/-- The two operating-system removal primitives remove can attempt. -/
inductive Attempt where
  | dirRemoval
  | fileRemoval
deriving DecidableEq, Repr

/-- remove with its control flow made observable: the same result as
remove, paired with the ordered list of attempts it makes. -/
def removeTrace (env : FsEnv) (path : Path) :
    Except FailedToRemove Unit × List Attempt :=
  match remove_dir env path with
  | .error e =>
    if not_a_directory e.io_source then
      (remove_file env path, [.dirRemoval, .fileRemoval])
    else (.error e, [.dirRemoval])
  | .ok _ => (.ok (), [.dirRemoval])

/-- routine.rs Routine: a directory, an interval and a pattern.  interval
models time::Duration as a signed count of nanoseconds; the structure has
no constructor validation, exactly as the Rust struct with public fields. -/
structure Routine where
  directory : Path
  interval : Int
  pattern : FilePattern

/-- The for loop of Routine::run: entries that errored during enumeration
are skipped; on each ok entry whose path matches the pattern,
fs_utils::remove is invoked and its result discarded.  Returns the paths
passed to remove, in order. -/
def runLoop (pattern : FilePattern) :
    List (Except IoError DirEntry) → List Path
  | [] => []
  | item :: rest =>
    match item with
    | .ok entry =>
      if pattern.matches entry.path then entry.path :: runLoop pattern rest
      else runLoop pattern rest
    | .error _ => runLoop pattern rest

/-- routine.rs Routine::run: lists the directory, propagating a listing
failure via the ? operator, then runs the loop.  Returns the io::Result
paired with the trace of paths on which fs_utils::remove was invoked. -/
def Routine.run (env : FsEnv) (self : Routine) :
    Except IoError Unit × List Path :=
  match env.readDir self.directory with
  | .error e => (.error e, [])
  | .ok items => (.ok (), runLoop self.pattern items)

/-- The program points of the loop body in routine.rs spawn_routine. -/
inductive LoopState where
  | beforeRun
  | beforeSleep
deriving DecidableEq, Repr

/-- The observable actions of the execution context spawn_routine
launches: one run of the routine, or one sleep of a given duration. -/
inductive ThreadAction where
  | ranRoutine
  | slept (d : Nat)
deriving DecidableEq, Repr

/-- One step of the loop in routine.rs spawn_routine: routine.run() is
called and its outcome discarded, then the thread sleeps for
routine.interval.unsigned_abs().  Every state has a successor: the loop
has no exit condition. -/
def loopStep (env : FsEnv) (r : Routine) :
    LoopState → LoopState × ThreadAction
  | .beforeRun =>
    let _discarded := Routine.run env r
    (.beforeSleep, .ranRoutine)
  | .beforeSleep => (.beforeRun, .slept r.interval.natAbs)

/-- The actions of the first n steps of the loop, started in state s. -/
def loopActions (env : FsEnv) (r : Routine) :
    Nat → LoopState → List ThreadAction
  | 0, _ => []
  | n + 1, s =>
    (loopStep env r s).2 :: loopActions env r n (loopStep env r s).1

/-- routine.rs spawn_routine: the trace of the spawned thread's first n
steps, starting at the top of the loop. -/
def spawn_routine (env : FsEnv) (r : Routine) (n : Nat) :
    List ThreadAction :=
  loopActions env r n .beforeRun

/-- The path an ok directory entry contributes to the listing, none for an
entry that errored during enumeration.  Used to state which paths a pass
can touch. -/
def okEntryPath : Except IoError DirEntry → Option Path
  | .ok entry => some entry.path
  | .error _ => none

/-! Concrete fixtures used by the witness theorems. -/

/-- A not-found operating-system error (Windows code 2). -/
def errNotFound : IoError := { kind := .notFound, rawOsError := some 2 }

/-- A not-a-directory operating-system error (Windows code 267). -/
def errNotADir : IoError := { kind := .otherKind, rawOsError := some 267 }

/-- An access-denied operating-system error (Windows code 5). -/
def errAccessDenied : IoError :=
  { kind := .permissionDenied, rawOsError := some 5 }

/-- A directory entry named a.lnk. -/
def entryA : DirEntry := ⟨⟨["dir", "a.lnk"]⟩⟩

/-- A directory entry named b.txt. -/
def entryB : DirEntry := ⟨⟨["dir", "b.txt"]⟩⟩

/-- A subdirectory entry named c. -/
def entryC : DirEntry := ⟨⟨["dir", "c"]⟩⟩

/-- A successful listing holding a.lnk, b.txt and the subdirectory c. -/
def listingDir : List (Except IoError DirEntry) :=
  [.ok entryA, .ok entryB, .ok entryC]

/-- An environment where the listing succeeds with listingDir and every
removal primitive reports not-found. -/
def envListing : FsEnv where
  removeDirAll := fun _ => .error errNotFound
  removeFile := fun _ => .error errNotFound
  readDir := fun _ => .ok listingDir

/-- An environment where nothing exists: every call reports not-found. -/
def envAbsent : FsEnv where
  removeDirAll := fun _ => .error errNotFound
  removeFile := fun _ => .error errNotFound
  readDir := fun _ => .error errNotFound

/-- An environment whose directory listing fails with access denied. -/
def envBadDir : FsEnv where
  removeDirAll := fun _ => .error errNotFound
  removeFile := fun _ => .error errNotFound
  readDir := fun _ => .error errAccessDenied

/-- An environment where every path is a plain file that cannot be
removed: the directory removal reports not-a-directory and the file
removal reports access denied. -/
def envFallback : FsEnv where
  removeDirAll := fun _ => .error errNotADir
  removeFile := fun _ => .error errAccessDenied
  readDir := fun _ => .ok []

/-- A routine removing lnk files from dir every 60 units. -/
def routineLnk : Routine where
  directory := ⟨["dir"]⟩
  interval := 60
  pattern := .Extension "lnk"

/-- A routine constructed with a negative interval. -/
def routineNeg : Routine where
  directory := ⟨["dir"]⟩
  interval := -5
  pattern := .Any

/-- Claim C1: when the underlying removal attempt reports a not-found
operating-system error, remove_with normalizes it to Ok, so remove on a
path that does not exist returns success. -/
theorem remove_absent_ok (env : FsEnv) (path : Path) (e : IoError)
    (h : env.removeDirAll path = .error e) (hn : not_found e = true) :
    remove_with env.removeDirAll path = .ok () ∧
      remove env path = .ok () := by
  constructor
  · simp [remove_with, h, hn]
  · simp [remove, remove_dir, remove_with, h, hn]

/-- Witness for C1: removing a path in an environment where every call
reports not-found succeeds. -/
theorem remove_absent_ok_witness :
    remove envAbsent ⟨["gone.txt"]⟩ = .ok () :=
  (remove_absent_ok envAbsent ⟨["gone.txt"]⟩ errNotFound rfl rfl).2

/-- Claim C2: remove yields the same result as its observable-trace
version, always attempts the recursive directory removal first, and
attempts the plain file removal exactly when the directory removal fails
with an operating-system error that is not not-found but signals
not-a-directory. -/
theorem remove_dir_first_file_iff_redirect (env : FsEnv) (path : Path) :
    (removeTrace env path).1 = remove env path ∧
    (removeTrace env path).2.head? = some Attempt.dirRemoval ∧
    (Attempt.fileRemoval ∈ (removeTrace env path).2 ↔
      ∃ e : IoError, env.removeDirAll path = .error e ∧
        not_found e = false ∧ not_a_directory e = true) := by
  cases hd : env.removeDirAll path with
  | ok u =>
    simp [removeTrace, remove, remove_dir, remove_with, hd]
  | error e =>
    cases hn : not_found e with
    | true =>
      simp [removeTrace, remove, remove_dir, remove_with, hd, hn]
    | false =>
      cases hnad : not_a_directory e with
      | true =>
        simp [removeTrace, remove, remove_dir, remove_with, hd, hn, hnad,
          FailedToRemove.new, FailedToRemove.io_source]
      | false =>
        simp [removeTrace, remove, remove_dir, remove_with, hd, hn, hnad,
          FailedToRemove.new, FailedToRemove.io_source]

/-- Witness for C2: on a plain file the directory removal reports
not-a-directory, so the trace contains the file-removal attempt. -/
theorem remove_dir_first_file_iff_redirect_witness :
    Attempt.fileRemoval ∈ (removeTrace envFallback ⟨["f"]⟩).2 :=
  (remove_dir_first_file_iff_redirect envFallback ⟨["f"]⟩).2.2.mpr
    ⟨errNotADir, rfl, rfl, rfl⟩

/-- Claim C3: Any matches every path; Extension ext matches a path with
an extension iff that extension equals ext exactly, and a path with no
extension never matches a non-empty ext. -/
theorem matches_spec :
    (∀ p : Path, FilePattern.Any.matches p = true) ∧
    (∀ (p : Path) (ext e : String), Path.extension p = some e →
      ((FilePattern.Extension ext).matches p = true ↔ e = ext)) ∧
    (∀ (p : Path) (ext : String), Path.extension p = none → ext ≠ "" →
      (FilePattern.Extension ext).matches p = false) := by
  refine ⟨fun p => rfl, fun p ext e h => ?_, fun p ext h hne => ?_⟩
  · simp [FilePattern.matches, has_extension, h]
  · simp [FilePattern.matches, has_extension, h]
    exact Ne.symm hne

/-- Witness for C3: the lnk pattern matches a.lnk and does not match an
extensionless file. -/
theorem matches_spec_witness :
    (FilePattern.Extension "lnk").matches ⟨["a.lnk"]⟩ = true ∧
    (FilePattern.Extension "lnk").matches ⟨["a"]⟩ = false :=
  ⟨(matches_spec.2.1 ⟨["a.lnk"]⟩ "lnk" "lnk" (by decide)).mpr rfl,
   matches_spec.2.2 ⟨["a"]⟩ "lnk" (by decide) (by decide)⟩

/-- Claim C8: a missing extension is defaulted to the empty string before
comparison, so the empty-string pattern matches every extensionless path
and any path whose literal extension is empty. -/
theorem extension_empty_matches (p : Path)
    (h : Path.extension p = none ∨ Path.extension p = some "") :
    (FilePattern.Extension "").matches p = true := by
  cases h with
  | inl h => simp [FilePattern.matches, has_extension, h]
  | inr h => simp [FilePattern.matches, has_extension, h]

/-- Witness for C8: the empty-string pattern matches the extensionless
file README. -/
theorem extension_empty_matches_witness :
    (FilePattern.Extension "").matches ⟨["README"]⟩ = true :=
  extension_empty_matches ⟨["README"]⟩ (Or.inl (by decide))

/-- Claim C9: when the directory-removal attempt redirects and the
file-removal fallback also fails, the error returned carries the fallback
attempt's operating-system error; the directory attempt's error does not
appear in the result. -/
theorem fallback_error_cause (env : FsEnv) (path : Path) (e1 e2 : IoError)
    (h1 : env.removeDirAll path = .error e1)
    (hn1 : not_found e1 = false) (hd1 : not_a_directory e1 = true)
    (h2 : env.removeFile path = .error e2) (hn2 : not_found e2 = false) :
    remove env path = .error (FailedToRemove.new path e2) := by
  simp [remove, remove_dir, remove_file, remove_with, h1, hn1, hd1, h2,
    hn2, FailedToRemove.io_source, FailedToRemove.new]

/-- Witness for C9: a file that exists but cannot be removed surfaces the
access-denied error from the file-removal fallback. -/
theorem fallback_error_cause_witness :
    remove envFallback ⟨["f"]⟩ =
      .error (FailedToRemove.new ⟨["f"]⟩ errAccessDenied) :=
  fallback_error_cause envFallback ⟨["f"]⟩ errNotADir errAccessDenied
    rfl rfl rfl rfl rfl

/-- The loop of Routine::run invokes remove on the matching paths of the
ok entries, in listing order. -/
lemma runLoop_eq (pattern : FilePattern)
    (items : List (Except IoError DirEntry)) :
    runLoop pattern items =
      (items.filterMap okEntryPath).filter fun p => pattern.matches p := by
  induction items with
  | nil => rfl
  | cons item rest ih =>
    cases item with
    | error e => simp [runLoop, okEntryPath, ih]
    | ok entry =>
      cases hm : pattern.matches entry.path with
      | true => simp [runLoop, okEntryPath, hm, ih, List.filter_cons]
      | false => simp [runLoop, okEntryPath, hm, ih, List.filter_cons]

/-- Claim C4: given the one listing of a pass, run invokes remove exactly
on the immediate entries whose path matches the routine's pattern: never
on a non-matching entry, and on every successfully enumerated matching
entry. -/
theorem run_invokes_exactly_matching (env : FsEnv) (r : Routine)
    (items : List (Except IoError DirEntry))
    (h : env.readDir r.directory = .ok items) (p : Path) :
    p ∈ (Routine.run env r).2 ↔
      ∃ entry : DirEntry, Except.ok entry ∈ items ∧ entry.path = p ∧
        r.pattern.matches p = true := by
  have hrun : (Routine.run env r).2 = runLoop r.pattern items := by
    unfold Routine.run
    rw [h]
  rw [hrun, runLoop_eq]
  simp only [List.mem_filter, List.mem_filterMap]
  constructor
  · rintro ⟨⟨a, ha, hsome⟩, hm⟩
    cases a with
    | ok entry =>
      simp only [okEntryPath, Option.some.injEq] at hsome
      exact ⟨entry, ha, hsome, hm⟩
    | error e => simp [okEntryPath] at hsome
  · rintro ⟨entry, hmem, hpath, hm⟩
    exact ⟨⟨.ok entry, hmem, by simp [okEntryPath, hpath]⟩, hm⟩

/-- Witness for C4: in the listing holding a.lnk, b.txt and subdirectory
c, the lnk routine invokes remove on a.lnk. -/
theorem run_invokes_exactly_matching_witness :
    (⟨["dir", "a.lnk"]⟩ : Path) ∈ (Routine.run envListing routineLnk).2 :=
  (run_invokes_exactly_matching envListing routineLnk listingDir rfl
    ⟨["dir", "a.lnk"]⟩).mpr ⟨entryA, by decide, by decide, by decide⟩

/-- Claim C5: run returns an error exactly when the initial listing
fails; a failed listing yields that I/O error with zero removals, and a
successful listing yields success regardless of the removal outcomes. -/
theorem run_error_iff (env : FsEnv) (r : Routine) :
    ((∃ e : IoError, (Routine.run env r).1 = .error e) ↔
      (∃ e : IoError, env.readDir r.directory = .error e)) ∧
    (∀ e : IoError, env.readDir r.directory = .error e →
      Routine.run env r = (.error e, [])) ∧
    (∀ items, env.readDir r.directory = .ok items →
      (Routine.run env r).1 = .ok ()) := by
  cases hd : env.readDir r.directory with
  | ok items => simp [Routine.run, hd]
  | error e => simp [Routine.run, hd]

/-- Witness for C5: a pass over an unlistable directory returns the
listing error and performs zero removals. -/
theorem run_error_iff_witness :
    Routine.run envBadDir routineLnk = (.error errAccessDenied, []) :=
  (run_error_iff envBadDir routineLnk).2.1 errAccessDenied rfl

/-- Claim C6: remove returns an error exactly when a removal attempt
fails for a reason other than the target being absent (and other than the
not-a-directory redirect on the first attempt), and the error carries the
original path together with the underlying operating-system cause. -/
theorem remove_error_characterization (env : FsEnv) (path : Path)
    (fe : FailedToRemove) :
    remove env path = .error fe ↔
      (fe.path = path ∧ not_found fe.source = false ∧
        ((env.removeDirAll path = .error fe.source ∧
            not_a_directory fe.source = false) ∨
         (∃ e1 : IoError, env.removeDirAll path = .error e1 ∧
            not_found e1 = false ∧ not_a_directory e1 = true ∧
            env.removeFile path = .error fe.source))) := by
  obtain ⟨fep, fes⟩ := fe
  cases hd : env.removeDirAll path with
  | ok u =>
    simp [remove, remove_dir, remove_file, remove_with, hd]
  | error e =>
    cases hn : not_found e with
    | true =>
      simp only [remove, remove_dir, remove_file, remove_with, hd, hn,
        if_true, Except.error.injEq]
      constructor
      · rintro h'
        cases h'
      · rintro ⟨-, hnf, (⟨rfl, -⟩ | ⟨e1, rfl, hn1, -, -⟩)⟩
        · simp [hn] at hnf
        · simp [hn] at hn1
    | false =>
      cases hnad : not_a_directory e with
      | false =>
        simp only [remove, remove_dir, remove_file, remove_with, hd, hn,
          Bool.false_eq_true, if_false, FailedToRemove.new,
          FailedToRemove.io_source, hnad, Except.error.injEq,
          FailedToRemove.mk.injEq]
        constructor
        · rintro ⟨rfl, rfl⟩
          exact ⟨rfl, hn, Or.inl ⟨rfl, hnad⟩⟩
        · rintro ⟨rfl, hnf, (⟨rfl, -⟩ | ⟨e1, rfl, -, hnad1, -⟩)⟩
          · exact ⟨rfl, rfl⟩
          · simp [hnad] at hnad1
      | true =>
        cases hf : env.removeFile path with
        | ok u2 =>
          simp only [remove, remove_dir, remove_file, remove_with, hd, hn,
            Bool.false_eq_true, if_false, FailedToRemove.new,
            FailedToRemove.io_source, hnad, if_true, hf,
            Except.error.injEq]
          constructor
          · rintro h'
            cases h'
          · rintro ⟨-, hnf, (⟨rfl, hx⟩ | ⟨e1, rfl, -, -, hx⟩)⟩
            · simp [hnad] at hx
            · cases hx
        | error e2 =>
          cases hn2 : not_found e2 with
          | true =>
            simp only [remove, remove_dir, remove_file, remove_with, hd,
              hn, Bool.false_eq_true, if_false, FailedToRemove.new,
              FailedToRemove.io_source, hnad, if_true, hf, hn2,
              Except.error.injEq]
            constructor
            · rintro h'
              cases h'
            · rintro ⟨-, hnf, (⟨rfl, hx⟩ | ⟨e1, rfl, -, -, hx⟩)⟩
              · simp [hnad] at hx
              · cases hx with
                | refl => simp [hn2] at hnf
          | false =>
            simp only [remove, remove_dir, remove_file, remove_with, hd,
              hn, Bool.false_eq_true, if_false, FailedToRemove.new,
              FailedToRemove.io_source, hnad, if_true, hf, hn2,
              Except.error.injEq, FailedToRemove.mk.injEq]
            constructor
            · rintro ⟨rfl, rfl⟩
              exact ⟨rfl, hn2, Or.inr ⟨e, rfl, hn, hnad, rfl⟩⟩
            · rintro ⟨rfl, hnf, (⟨rfl, hx⟩ | ⟨e1, rfl, -, -, hx⟩)⟩
              · simp [hnad] at hx
              · cases hx with
                | refl => exact ⟨rfl, rfl⟩

/-- Witness for C6: a file that exists and cannot be removed yields the
error carrying its path and the access-denied cause. -/
theorem remove_error_characterization_witness :
    remove envFallback ⟨["g"]⟩ =
      .error (FailedToRemove.new ⟨["g"]⟩ errAccessDenied) :=
  (remove_error_characterization envFallback ⟨["g"]⟩
    (FailedToRemove.new ⟨["g"]⟩ errAccessDenied)).mpr
    ⟨rfl, rfl, Or.inr ⟨errNotADir, rfl, rfl, rfl, rfl⟩⟩

/-- The loop trace has exactly one action per step: the loop never
reaches a state without a successor. -/
lemma loopActions_length (env : FsEnv) (r : Routine) :
    ∀ (n : Nat) (s : LoopState), (loopActions env r n s).length = n := by
  intro n
  induction n with
  | zero => intro s; rfl
  | succ n ih => intro s; simp [loopActions, ih]

/-- Two steps from the top of the loop: one run of the routine followed
by one sleep of interval.unsigned_abs(). -/
lemma loopActions_two_step (env : FsEnv) (r : Routine) (m : Nat) :
    loopActions env r (m + 2) .beforeRun =
      ThreadAction.ranRoutine :: ThreadAction.slept r.interval.natAbs ::
        loopActions env r m .beforeRun := rfl

/-- Closed form of the loop trace at even step counts: n repetitions of
run-then-sleep. -/
lemma loopActions_closed_form (env : FsEnv) (r : Routine) :
    ∀ n : Nat, loopActions env r (2 * n) .beforeRun =
      (List.replicate n
        [ThreadAction.ranRoutine,
          ThreadAction.slept r.interval.natAbs]).flatten := by
  intro n
  induction n with
  | zero => rfl
  | succ n ih =>
    have h2 : 2 * (n + 1) = 2 * n + 2 := by ring
    rw [h2, loopActions_two_step env r (2 * n), ih,
      List.replicate_succ]
    simp

/-- Each full cycle of the loop appends a run followed by a sleep. -/
lemma loopActions_cycle (env : FsEnv) (r : Routine) (n : Nat) :
    loopActions env r (2 * n + 2) .beforeRun =
      loopActions env r (2 * n) .beforeRun ++
        [ThreadAction.ranRoutine, ThreadAction.slept r.interval.natAbs] := by
  have h2 : 2 * n + 2 = 2 * (n + 1) := by ring
  rw [h2, loopActions_closed_form, loopActions_closed_form,
    List.replicate_succ']
  simp

/-- The loop trace does not depend on the environment: the outcome of
each run is discarded. -/
lemma loopActions_env_irrelevant (env env2 : FsEnv) (r : Routine) :
    ∀ (n : Nat) (s : LoopState),
      loopActions env2 r n s = loopActions env r n s := by
  intro n
  induction n with
  | zero => intro s; rfl
  | succ n ih =>
    intro s
    cases s with
    | beforeRun => simp [loopActions, loopStep, ih]
    | beforeSleep => simp [loopActions, loopStep, ih]

/-- Claim C7: for a routine with a strictly positive interval, the
spawned execution context forever repeats run-then-sleep with a sleep of
exactly the routine's interval, has an action at every step (no exit
condition), and its trace is independent of the run outcomes. -/
theorem spawn_routine_forever (env : FsEnv) (r : Routine)
    (h : 0 < r.interval) :
    (∀ n : Nat, (spawn_routine env r n).length = n) ∧
    (∀ n : Nat, ∃ d : Nat, (d : Int) = r.interval ∧
      spawn_routine env r (2 * n + 2) =
        spawn_routine env r (2 * n) ++
          [ThreadAction.ranRoutine, ThreadAction.slept d]) ∧
    (∀ (env2 : FsEnv) (n : Nat),
      spawn_routine env2 r n = spawn_routine env r n) :=
  ⟨fun n => loopActions_length env r n _,
   fun n => ⟨r.interval.natAbs, Int.natAbs_of_nonneg h.le,
     loopActions_cycle env r n⟩,
   fun env2 n => loopActions_env_irrelevant env env2 r n _⟩

/-- Witness for C7: the first cycle of the 60-unit routine runs once and
sleeps 60 units. -/
theorem spawn_routine_forever_witness :
    spawn_routine envListing routineLnk 2 =
      [ThreadAction.ranRoutine, ThreadAction.slept 60] := by
  obtain ⟨d, hd, he⟩ :=
    (spawn_routine_forever envListing routineLnk (by decide)).2.1 0
  have h60 : routineLnk.interval = 60 := rfl
  rw [h60] at hd
  have hd60 : d = 60 := by exact_mod_cast hd
  rw [hd60] at he
  simpa [spawn_routine, loopActions] using he

/-- Claim C10: the sleep duration is the absolute value of the signed
interval, so a routine constructed with a negative interval is accepted
and its context sleeps for the interval's magnitude between passes. -/
theorem spawn_routine_negative_interval (env : FsEnv) (r : Routine)
    (h : r.interval < 0) :
    (∀ n : Nat, spawn_routine env r (2 * n + 2) =
      spawn_routine env r (2 * n) ++
        [ThreadAction.ranRoutine,
          ThreadAction.slept r.interval.natAbs]) ∧
    ((r.interval.natAbs : Int) = -r.interval) :=
  ⟨fun n => loopActions_cycle env r n, by omega⟩

/-- Witness for C10: the routine with interval -5 runs and then sleeps
5 units. -/
theorem spawn_routine_negative_interval_witness :
    spawn_routine envListing routineNeg 2 =
      [ThreadAction.ranRoutine, ThreadAction.slept 5] := by
  have he := (spawn_routine_negative_interval envListing routineNeg
    (by decide)).1 0
  simpa [spawn_routine, loopActions, routineNeg] using he

end FolderCleaner
